import Mathlib

/-!
Verification of the configuration cascade, flag normalization and command
registry of the `yaml-to-test` CLI repository.

The JavaScript sources are shallowly embedded: JSON/JS runtime values become
the inductive `JsValue` (with an explicit `undefined` constructor standing for
JavaScript `undefined`), the file system becomes an explicit map from path
strings to file contents, and `process.exit` becomes an `Except` error result
carrying the exit code and the error messages logged on the fatal path.

The repository contains two divergent implementations of the cascade
(`src/config/configLoader.js` of the `yaml-to-test` tree, and the
`testweaver` variant of the same file): both are embedded, in namespaces
`ConfigLoader` and `TW` respectively.
-/

set_option autoImplicit false

/-- A JavaScript/JSON runtime value as observed by the configuration code.
`undefined` is JavaScript `undefined` (absent object property / unset option);
numbers are abstracted to `Int` (no claim depends on float semantics). -/
inductive JsValue where
  | undefined
  | null
  | bool (b : Bool)
  | num (n : Int)
  | str (s : String)
  | arr (elems : List JsValue)
  | obj (fields : List (String × JsValue))
  deriving Repr

namespace JsValue

mutual

/-- Structural (value) equality on `JsValue`. -/
def beq : JsValue → JsValue → Bool
  | .undefined, .undefined => true
  | .null, .null => true
  | .bool a, .bool b => a == b
  | .num a, .num b => a == b
  | .str a, .str b => a == b
  | .arr xs, .arr ys => beqList xs ys
  | .obj fs, .obj gs => beqFields fs gs
  | _, _ => false

/-- Elementwise equality of `JsValue` lists. -/
def beqList : List JsValue → List JsValue → Bool
  | [], [] => true
  | x :: xs, y :: ys => beq x y && beqList xs ys
  | _, _ => false

/-- Entrywise equality of object field lists. -/
def beqFields : List (String × JsValue) → List (String × JsValue) → Bool
  | [], [] => true
  | (k, v) :: fs, (l, w) :: gs => k == l && beq v w && beqFields fs gs
  | _, _ => false

end

mutual

theorem beq_iff : ∀ (a b : JsValue), (beq a b = true) ↔ a = b
  | .undefined, b => by cases b <;> simp [beq]
  | .null, b => by cases b <;> simp [beq]
  | .bool x, b => by cases b <;> simp [beq]
  | .num x, b => by cases b <;> simp [beq]
  | .str x, b => by cases b <;> simp [beq]
  | .arr xs, b => by
      cases b <;> simp [beq]
      case arr ys => simpa using beqList_iff xs ys
  | .obj fs, b => by
      cases b <;> simp [beq]
      case obj gs => simpa using beqFields_iff fs gs

theorem beqList_iff : ∀ (xs ys : List JsValue), (beqList xs ys = true) ↔ xs = ys
  | [], [] => by simp [beqList]
  | [], _ :: _ => by simp [beqList]
  | _ :: _, [] => by simp [beqList]
  | x :: xs, y :: ys => by
      simp only [beqList, Bool.and_eq_true, List.cons.injEq]
      rw [beq_iff x y, beqList_iff xs ys]

theorem beqFields_iff :
    ∀ (fs gs : List (String × JsValue)), (beqFields fs gs = true) ↔ fs = gs
  | [], [] => by simp [beqFields]
  | [], _ :: _ => by simp [beqFields]
  | _ :: _, [] => by simp [beqFields]
  | (k, v) :: fs, (l, w) :: gs => by
      simp only [beqFields, Bool.and_eq_true, List.cons.injEq, Prod.mk.injEq,
        beq_iff_eq]
      rw [beq_iff v w, beqFields_iff fs gs]

end

instance : DecidableEq JsValue := fun a b => decidable_of_iff _ (beq_iff a b)

/-- JavaScript property access `v[k]`: `undefined` on non-objects and on
missing keys; first binding wins (parsed JSON objects have unique keys). -/
def get : JsValue → String → JsValue
  | .obj fields, k => ((fields.find? (fun p => p.1 == k)).map Prod.snd).getD .undefined
  | _, _ => .undefined

/-- JavaScript truthiness: `undefined`, `null`, `false`, `0` and `""` are
falsy; every array and object is truthy. -/
def truthy : JsValue → Bool
  | .undefined => false
  | .null => false
  | .bool b => b
  | .num n => n != 0
  | .str s => decide (s ≠ "")
  | .arr _ => true
  | .obj _ => true

/-- JavaScript `a || b`: the first operand when truthy, otherwise the second. -/
def jsOr (a b : JsValue) : JsValue := if a.truthy then a else b

end JsValue

/-- First-occurrence de-duplication with an accumulator of already-kept
elements. -/
def dedupSeen (seen : List JsValue) : List JsValue → List JsValue
  | [] => []
  | x :: xs => if x ∈ seen then dedupSeen seen xs else x :: dedupSeen (x :: seen) xs

/-- First-occurrence de-duplication, the order-preserving semantics of
JavaScript `[...new Set(xs)]` (elements here are value-compared strings). -/
def dedupFirst (l : List JsValue) : List JsValue := dedupSeen [] l

/-! ## JSON Schema model

The schema is the one produced by `scripts/generate-config-schema.js`:
`type: object`, eleven declared properties with the types listed there,
`testKeyword` restricted to the enum `it`/`test`, every property required,
and `additionalProperties: false`.  Ajv (allErrors mode) is modelled as a
function from a value to its list of validation errors, each error carrying
`instancePath` and `message` in Ajv 8 default format. -/

/-- One Ajv validation error, as consumed by `validateConfig`. -/
structure AjvError where
  instancePath : String
  message : String
  deriving DecidableEq, Repr

/-- The declared type of one schema property. -/
inductive PropType where
  | boolT
  | strArrT
  | keywordT
  deriving DecidableEq, Repr

/-- The eleven properties of `default-config.schema.json`, in schema order. -/
def schemaProps : List (String × PropType) :=
  [("patterns", .strArrT), ("ignore", .strArrT), ("verbose", .boolT),
   ("debug", .boolT), ("silent", .boolT), ("dryRun", .boolT),
   ("testKeyword", .keywordT), ("noCleanup", .boolT), ("quick", .boolT),
   ("force", .boolT), ("no-defaults", .boolT)]

/-- The declared (and required) schema keys. -/
def schemaKeys : List String := schemaProps.map Prod.fst

/-- Ajv errors for one present property value against its declared type. -/
def propErrors (k : String) (ty : PropType) (v : JsValue) : List AjvError :=
  match ty with
  | .boolT =>
      match v with
      | .bool _ => []
      | _ => [⟨"/" ++ k, "must be boolean"⟩]
  | .strArrT =>
      match v with
      | .arr xs =>
          (xs.enum.filterMap (fun p =>
            match p.2 with
            | .str _ => none
            | _ => some (⟨"/" ++ k ++ "/" ++ toString p.1, "must be string"⟩ : AjvError)))
      | _ => [⟨"/" ++ k, "must be array"⟩]
  | .keywordT =>
      match v with
      | .str s =>
          if s = "it" ∨ s = "test" then []
          else [⟨"/" ++ k, "must be equal to one of the allowed values"⟩]
      | _ => [⟨"/" ++ k, "must be string"⟩,
              ⟨"/" ++ k, "must be equal to one of the allowed values"⟩]

/-- All Ajv errors (allErrors mode) for a candidate configuration value:
root type check, missing required keys, unknown keys
(`additionalProperties: false`), then per-property checks. -/
def schemaErrors (v : JsValue) : List AjvError :=
  match v with
  | .obj fields =>
      (schemaKeys.filter (fun k => ¬ fields.any (fun kv => kv.1 == k))).map
        (fun k => ⟨"", "must have required property \x27" ++ k ++ "\x27"⟩)
      ++ (fields.filter (fun kv => ¬ schemaKeys.contains kv.1)).map
        (fun _ => ⟨"", "must NOT have additional properties"⟩)
      ++ fields.flatMap (fun kv =>
          match (schemaProps.find? (fun p => p.1 == kv.1)).map Prod.snd with
          | some ty => propErrors kv.1 ty kv.2
          | none => [])
  | _ => [⟨"", "must be object"⟩]

/-- The line `validateConfig` logs for one Ajv error:
`    - ${err.instancePath || "root"} ${err.message}`. -/
def errorLine (e : AjvError) : String :=
  "    - " ++ (if e.instancePath = "" then "root" else e.instancePath) ++ " " ++ e.message

/-! ## Process and file-system model -/

/-- A fatal `process.exit`: the exit code together with the error messages
logged on the way out. -/
structure Fatal where
  code : Nat
  messages : List String
  deriving DecidableEq, Repr

/-- What the file system holds at one path: nothing, a file whose contents do
not parse as JSON, or a file parsing to the given JSON value. -/
inductive FileContent where
  | absent
  | malformed
  | json (v : JsValue)

/-- The ambient state the loaders see: the file system, the working directory
and the `__dirname` of the CLI entry point.  The JSON-schema file is assumed
present and compiled (its absence is not the subject of any claim). -/
structure Env where
  fs : String → FileContent
  cwd : String
  mainModuleDir : String

/-- Model of `path.join(a, b)`, with path strings kept abstract (no normalization). -/
def pathJoin (a b : String) : String := a ++ "/" ++ b

/-- Model of `path.resolve(cwd, p)`, abstracted to joining (claims treat resolved
paths as opaque names). -/
def resolvePath (cwd p : String) : String := cwd ++ "/" ++ p

/-- The string payload of a `JsValue` (option values such as `--config`
are strings when set). -/
def JsValue.asString : JsValue → String
  | .str s => s
  | _ => ""

/-! ## CLI options and consolidated configuration -/

/-- The Commander-produced options object, restricted to the fields the
configuration code reads.  Each field is a `JsValue`; an option the user did
not pass is `undefined`. -/
structure CliOptions where
  config : JsValue
  ignore : JsValue
  dryRun : JsValue
  testKeyword : JsValue
  watch : JsValue
  noCleanup : JsValue
  quick : JsValue
  force : JsValue
  debug : JsValue
  verbose : JsValue
  silent : JsValue
  deriving Repr

/-- The function `determineLogLevel` (identical in both configLoader variants);
log levels are the numeric `LOG_LEVELS` values: SILENT 0, ERROR 1, WARN 2,
INFO 3, VERBOSE 4, DEBUG 5. -/
def determineLogLevel (options : CliOptions) (loadedConfig : JsValue) : Nat :=
  if options.debug.truthy then 5
  else if options.verbose.truthy then 4
  else if options.silent.truthy then 0
  else if (loadedConfig.get "debug").truthy then 5
  else if (loadedConfig.get "verbose").truthy then 4
  else if (loadedConfig.get "silent").truthy then 0
  else 3

/-- The consolidated `cliConfig` object both loaders return. -/
structure CliConfig where
  logLevel : Nat
  effectivePatterns : JsValue
  effectiveIgnorePatterns : List JsValue
  isDryRun : JsValue
  testKeyword : JsValue
  watchMode : JsValue
  noCleanup : JsValue
  quick : JsValue
  force : JsValue
  deriving DecidableEq, Repr

/-! ## `src/config/configLoader.js` of the yaml-to-test tree -/

namespace ConfigLoader

/-- Model of `validateConfig(config, configFilePath)`: schema failure logs a header
naming the file plus one line per Ajv error and exits with code 1. -/
def validateConfig (config : JsValue) (configFilePath : String) : Except Fatal Unit :=
  match schemaErrors config with
  | [] => .ok ()
  | errs =>
      .error ⟨1,
        ("\n❌ Error: Configuration file \x27" ++ configFilePath ++
          "\x27 is invalid according to the schema:") :: errs.map errorLine⟩

/-- Model of `loadConfigFile(configPath)`: `null` when the file is absent, a warning
and `null` on a JSON parse error, otherwise the parsed object after schema
validation (which exits the process when it fails). -/
def loadConfigFile (env : Env) (configPath : String) : Except Fatal (Option JsValue) :=
  match env.fs configPath with
  | .absent => .ok none
  | .malformed => .ok none
  | .json config =>
      match validateConfig config configPath with
      | .ok _ => .ok (some config)
      | .error f => .error f

/-- The IIFE computing `effectiveIgnorePatterns` before de-duplication:
CLI `--ignore` list if non-empty, else the config `ignore` array if it is a
non-empty array, else the hard default `node_modules`/`.git` pair — always
prefixed by the mandatory `**/*.test.js` exclusion. -/
def effIgnoreRaw (optIgnore cfgIgnore : JsValue) : List JsValue :=
  let base := [JsValue.str "**/*.test.js"]
  let cliList : Option (List JsValue) :=
    match optIgnore with
    | .arr xs => if xs.isEmpty then none else some xs
    | _ => none
  match cliList with
  | some xs => base ++ xs
  | none =>
      match cfgIgnore with
      | .arr ys =>
          if ys.isEmpty then base ++ [.str "node_modules", .str ".git"]
          else base ++ ys
      | _ => base ++ [.str "node_modules", .str ".git"]

/-- The `cliConfig` consolidation block of `loadConfig`, including the final
`new Set` de-duplication of the ignore patterns. -/
def mkCliConfig (cliPatterns : List String) (options : CliOptions)
    (loadedConfig : JsValue) : CliConfig :=
  ⟨determineLogLevel options loadedConfig,
   if cliPatterns.length > 0 then .arr (cliPatterns.map .str)
   else (loadedConfig.get "patterns").jsOr (.arr []),
   dedupFirst (effIgnoreRaw options.ignore (loadedConfig.get "ignore")),
   (options.dryRun.jsOr (loadedConfig.get "dryRun")).jsOr (.bool false),
   (options.testKeyword.jsOr (loadedConfig.get "testKeyword")).jsOr (.str "it"),
   options.watch.jsOr (.bool false),
   (options.noCleanup.jsOr (loadedConfig.get "noCleanup")).jsOr (.bool false),
   if options.quick ≠ .undefined then options.quick
   else (loadedConfig.get "quick").jsOr (.bool false),
   if options.force ≠ .undefined then options.force
   else (loadedConfig.get "force").jsOr (.bool false)⟩

/-- What a successful `loadConfig` run produced: the consolidated config, the
`configSource` string, the single config object the consolidation read
(`loadedConfig` in the source), and the config-file paths passed to
`loadConfigFile`, in order. -/
structure Outcome where
  cliConfig : CliConfig
  configSource : String
  loaded : JsValue
  consulted : List String
  deriving Repr

/-- Model of `loadConfig(cliPatterns, options, mainModuleDir)`: explicit `--config`
takes priority and its absence is fatal; otherwise the conventional
`yaml-to-test.json` in the working directory, then the packaged
`config/default.json`, whose absence is fatal. -/
def loadConfig (env : Env) (cliPatterns : List String) (options : CliOptions) :
    Except Fatal Outcome :=
  let cliConfigPath := pathJoin env.cwd "yaml-to-test.json"
  let defaultPath := pathJoin (pathJoin env.mainModuleDir "../config") "default.json"
  if options.config.truthy then
    let customConfigPath := resolvePath env.cwd options.config.asString
    match loadConfigFile env customConfigPath with
    | .error f => .error f
    | .ok none => .error ⟨1, []⟩
    | .ok (some customLoaded) =>
        .ok ⟨mkCliConfig cliPatterns options customLoaded,
             "custom config file: " ++ customConfigPath,
             customLoaded, [customConfigPath]⟩
  else
    match loadConfigFile env cliConfigPath with
    | .error f => .error f
    | .ok (some projectLoaded) =>
        .ok ⟨mkCliConfig cliPatterns options projectLoaded,
             "project config file: " ++ cliConfigPath,
             projectLoaded, [cliConfigPath]⟩
    | .ok none =>
        match loadConfigFile env defaultPath with
        | .error f => .error f
        | .ok (some defaultLoaded) =>
            .ok ⟨mkCliConfig cliPatterns options defaultLoaded,
                 "default config file: " ++ defaultPath,
                 defaultLoaded, [cliConfigPath, defaultPath]⟩
        | .ok none =>
            .error ⟨1,
              ["❌ Error: Default configuration file \x27" ++ defaultPath ++
                "\x27 not found or is invalid. Cannot proceed without a base configuration."]⟩

end ConfigLoader

/-! ## The testweaver variant of `src/config/configLoader.js`

This is the divergent cascade implementation in the repository: it loads the
default config as a required base, selects a project (or explicit custom)
config, shallow-merges the two with object spread, validates the merged
object, and builds the effective configuration from the merged object. -/

namespace TW

/-- Model of `validateConfig(config, sourceDescription)` of the testweaver variant
(lower-case messages, source label instead of file path). -/
def validateConfig (config : JsValue) (sourceDescription : String) : Except Fatal Unit :=
  match schemaErrors config with
  | [] => .ok ()
  | errs =>
      .error ⟨1,
        ("\n❌ error: configuration from \x27" ++ sourceDescription ++
          "\x27 is invalid according to the schema:") :: errs.map errorLine⟩

/-- Model of `loadConfigFile(configPath)` of the testweaver variant: no validation
here; absence and JSON parse errors (warned) both yield `null`. -/
def loadConfigFile (env : Env) (configPath : String) : Option JsValue :=
  match env.fs configPath with
  | .json config => some config
  | _ => none

/-- The own enumerable fields a value contributes under JavaScript object
spread: objects their fields, arrays index-keyed elements, strings
index-keyed characters, primitives nothing. -/
def spreadFields : JsValue → List (String × JsValue)
  | .obj fs => fs
  | .arr xs => xs.enum.map (fun p => (toString p.1, p.2))
  | .str s => s.toList.enum.map (fun p => (toString p.1, JsValue.str (String.singleton p.2)))
  | _ => []

/-- Field list of the object literal `{...d, ...p}`: bindings of `p` override
same-keyed bindings of `d`. -/
def mergeFields (d p : List (String × JsValue)) : List (String × JsValue) :=
  d.filter (fun kv => !(p.any (fun kw => kw.1 == kv.1))) ++ p

/-- Spread merge `mergedConfig = { ...defaultConfig, ...projectConfig }`. -/
def spreadMerge (d p : JsValue) : JsValue :=
  .obj (mergeFields (spreadFields d) (spreadFields p))

/-- Elements contributed by array spread `[...v]` (post-validation, `v` is
always an array here). -/
def arraySpread : JsValue → List JsValue
  | .arr xs => xs
  | .str s => s.toList.map (fun c => JsValue.str (String.singleton c))
  | _ => []

/-- The testweaver `effectiveIgnorePatterns` IIFE before de-duplication:
CLI `--ignore` list if non-empty, else `mergedConfig.ignore || []` — always
prefixed by the mandatory `**/*.test.js` exclusion and with no further hard
default. -/
def effIgnoreRaw (optIgnore mergedIgnore : JsValue) : List JsValue :=
  let base := [JsValue.str "**/*.test.js"]
  match optIgnore with
  | .arr xs => if xs.isEmpty then base ++ arraySpread (mergedIgnore.jsOr (.arr [])) else base ++ xs
  | _ => base ++ arraySpread (mergedIgnore.jsOr (.arr []))

/-- The testweaver `cliConfig` consolidation block (command-line options
override the merged config; `isDryRun` and `noCleanup` use an explicit
`!== undefined` test), including the final de-duplication. -/
def mkCliConfig (cliPatterns : List String) (options : CliOptions)
    (mergedConfig : JsValue) : CliConfig :=
  ⟨determineLogLevel options mergedConfig,
   if cliPatterns.length > 0 then .arr (cliPatterns.map .str)
   else (mergedConfig.get "patterns").jsOr (.arr []),
   dedupFirst (effIgnoreRaw options.ignore (mergedConfig.get "ignore")),
   if options.dryRun ≠ .undefined then options.dryRun else mergedConfig.get "dryRun",
   options.testKeyword.jsOr (mergedConfig.get "testKeyword"),
   options.watch.jsOr (.bool false),
   if options.noCleanup ≠ .undefined then options.noCleanup else mergedConfig.get "noCleanup",
   if options.quick ≠ .undefined then options.quick
   else (mergedConfig.get "quick").jsOr (.bool false),
   if options.force ≠ .undefined then options.force
   else (mergedConfig.get "force").jsOr (.bool false)⟩

/-- A successful testweaver `loadConfig` run: the consolidated config, the
`configSource` string, and the intermediate `mergedConfig` the consolidation
was built from. -/
structure Outcome where
  cliConfig : CliConfig
  configSource : String
  merged : JsValue
  deriving Repr

/-- The testweaver `loadConfig`: default config required and validated,
project/custom config selected (explicit `--config` missing is fatal),
shallow merge, validation of the merged object, then consolidation. -/
def loadConfig (env : Env) (cliPatterns : List String) (options : CliOptions) :
    Except Fatal Outcome :=
  let defaultConfigPath := pathJoin (pathJoin env.mainModuleDir "../config") "default.json"
  let cliConfigPath := pathJoin env.cwd "testweaver.json"
  match loadConfigFile env defaultConfigPath with
  | none =>
      .error ⟨1,
        ["❌ error: default configuration file \x27" ++ defaultConfigPath ++
          "\x27 not found or is invalid. cannot proceed."]⟩
  | some defaultConfig =>
      match validateConfig defaultConfig ("default config: " ++ defaultConfigPath) with
      | .error f => .error f
      | .ok _ =>
          let projectConfigPath :=
            if options.config.truthy then resolvePath env.cwd options.config.asString
            else cliConfigPath
          let afterSelect : Except Fatal (JsValue × String) :=
            match loadConfigFile env projectConfigPath with
            | some loadedProjectConfig =>
                .ok (loadedProjectConfig, "project config: " ++ projectConfigPath)
            | none =>
                if options.config.truthy then
                  .error ⟨1,
                    ["❌ error: custom configuration file specified with --config was not found at \x27" ++
                      projectConfigPath ++ "\x27."]⟩
                else
                  .ok (.obj [], "default config: " ++ defaultConfigPath)
          match afterSelect with
          | .error f => .error f
          | .ok (projectConfig, configSource) =>
              let mergedConfig := spreadMerge defaultConfig projectConfig
              match validateConfig mergedConfig configSource with
              | .error f => .error f
              | .ok _ =>
                  .ok ⟨mkCliConfig cliPatterns options mergedConfig,
                       configSource, mergedConfig⟩

end TW

/-! ## `src/utils/normalizeFlags.js` -/

/-- A Commander option definition as `normalizeFlags` observes it:
`attributeName` is the camel-cased property name `opt.attributeName()`
returns, and `required` is Commander\x27s marker for an option that takes a
mandatory value argument (boolean switches have `required = false`). -/
structure OptionDef where
  attributeName : String
  required : Bool
  deriving DecidableEq, Repr

/-- Property lookup on a plain options object (association list). -/
def objGet (o : List (String × JsValue)) (k : String) : Option JsValue :=
  (o.find? (fun p => p.1 == k)).map Prod.snd

/-- The test `typeof o[k] === "undefined"`: the key is absent or bound to `undefined`. -/
def isUndefined (o : List (String × JsValue)) (k : String) : Bool :=
  match objGet o k with
  | none => true
  | some .undefined => true
  | some _ => false

/-- JavaScript property assignment `o[k] = v`: overwrite in place if the key
exists, otherwise append the new binding. -/
def setProp (o : List (String × JsValue)) (k : String) (v : JsValue) :
    List (String × JsValue) :=
  if o.any (fun p => p.1 == k) then
    o.map (fun p => if p.1 == k then (k, v) else p)
  else o ++ [(k, v)]

/-- Model of `normalizeFlags(options, optionDefs)`: copy the options object, then for
each definition without a required value argument whose attribute is still
undefined, set it to `false`. -/
def normalizeFlags (options : List (String × JsValue)) (optionDefs : List OptionDef) :
    List (String × JsValue) :=
  optionDefs.foldl
    (fun normalized opt =>
      if !opt.required && isUndefined normalized opt.attributeName then
        setProp normalized opt.attributeName (.bool false)
      else normalized)
    options

/-! ## `src/utils/commandLoader.js` (the registry `src/cli.js` loads) -/

namespace CommandLoader

/-- What `require(filePath)` evaluates to for a candidate command module:
a function, an object with a callable `default` slot, some other value, or
a module whose loading throws. -/
inductive ModuleExport where
  | fn (f : List String → List String)
  | defaultFn (f : List String → List String)
  | value
  | throws (msg : String)

/-- A directory tree of command files, in directory-listing order.  The
program is abstracted to the list of registered command names a module
registration function appends to. -/
inductive DirEntry where
  | file (name : String) (m : ModuleExport)
  | dir (name : String) (entries : List DirEntry)

/-- The test `file.endsWith(".js")`, computed on the character list so that concrete
instances evaluate. -/
def hasJsSuffix (name : String) : Bool :=
  name.data.reverse.take 3 == ['s', 'j', '.']

/-- The warning `loadCommands` logs when a `.js` file does not export a
function. -/
def skipWarning (filePath : String) : String :=
  "Warning: Command file \x27" ++ filePath ++ "\x27 does not export a function. Skipping."

/-- The error `loadCommands` logs when requiring a command file throws. -/
def loadError (filePath : String) (msg : String) : String :=
  "❌ Error loading command file \x27" ++ filePath ++ "\x27: " ++ msg

mutual

/-- The body of the `for` loop of `loadCommands`: process the entries of one
directory in listing order, threading the program state and the logged
warning/error lines. -/
def runEntries (prog : List String) (msgs : List String) (dirPath : String) :
    List DirEntry → List String × List String
  | [] => (prog, msgs)
  | e :: rest =>
      let next := runEntry prog msgs dirPath e
      runEntries next.1 next.2 dirPath rest

/-- One loop iteration: recurse into subdirectories; for a `.js` file invoke
the exported function with the program, warn and skip a non-function export,
catch and log a throwing require; ignore non-`.js` files. -/
def runEntry (prog : List String) (msgs : List String) (dirPath : String) :
    DirEntry → List String × List String
  | .dir name entries => runEntries prog msgs (pathJoin dirPath name) entries
  | .file name m =>
      if hasJsSuffix name then
        match m with
        | .fn f => (f prog, msgs)
        | .defaultFn _ => (prog, msgs ++ [skipWarning (pathJoin dirPath name)])
        | .value => (prog, msgs ++ [skipWarning (pathJoin dirPath name)])
        | .throws emsg => (prog, msgs ++ [loadError (pathJoin dirPath name) emsg])
      else (prog, msgs)

end

/-- Model of `loadCommands(program, commandsDirPath)` over an existing commands
directory tree. -/
def loadCommands (prog : List String) (commandsDirPath : String)
    (entries : List DirEntry) : List String × List String :=
  runEntries prog [] commandsDirPath entries

end CommandLoader

/-- Whether `pre` is a prefix of `l` (character lists). -/
def isPrefixList : List Char → List Char → Bool
  | [], _ => true
  | _ :: _, [] => false
  | a :: pre, b :: l => a == b && isPrefixList pre l

/-- Whether `sub` occurs as a contiguous run somewhere in `l`. -/
def containsList (sub : List Char) : List Char → Bool
  | [] => isPrefixList sub []
  | l@(_ :: rest) => isPrefixList sub l || containsList sub rest

/-- Whether `sub` occurs somewhere in `s` (used to state that a logged message does,
or does not, name a key or file). -/
def containsStr (s sub : String) : Bool := containsList sub.data s.data

/-! ## Helper lemmas -/

theorem count_dedupSeen (x : JsValue) :
    ∀ (l seen : List JsValue), (dedupSeen seen l).count x
      = if x ∈ seen then 0 else if x ∈ l then 1 else 0 := by
  intro l
  induction l with
  | nil => intro seen; simp [dedupSeen]
  | cons y ys ih =>
      intro seen
      rw [dedupSeen]
      by_cases hys : y ∈ seen
      · rw [if_pos hys, ih]
        by_cases hxs : x ∈ seen
        · simp [hxs]
        · have hxy : x ≠ y := fun e => hxs (e ▸ hys)
          simp [hxs, hxy, List.mem_cons]
      · rw [if_neg hys]
        by_cases hxy : x = y
        · subst hxy
          rw [List.count_cons_self, ih (x :: seen)]
          simp [List.mem_cons, hys]
        · rw [List.count_cons_of_ne hxy, ih (y :: seen)]
          by_cases hxs : x ∈ seen
          · simp [hxs, List.mem_cons, hxy]
          · simp [hxs, List.mem_cons, hxy]

theorem count_dedupFirst_eq_one {x : JsValue} {l : List JsValue}
    (h : x ∈ l) : (dedupFirst l).count x = 1 := by
  rw [dedupFirst, count_dedupSeen]
  simp [h]

theorem objGet_setProp (o : List (String × JsValue)) (k k' : String) (v : JsValue) :
    objGet (setProp o k v) k' = if k' = k then some v else objGet o k' := by
  rw [objGet, setProp]
  by_cases hany : o.any (fun p => p.1 == k) = true
  · rw [if_pos hany, List.find?_map]
    have hpred : ((fun q : String × JsValue => q.1 == k') ∘
        (fun q : String × JsValue => if (q.1 == k) = true then (k, v) else q)) =
        (fun q : String × JsValue => q.1 == k') := by
      funext q
      by_cases hq : q.1 = k
      · by_cases hkk : k = k' <;> simp [hq, hkk]
      · simp [hq]
    rw [hpred]
    by_cases hkk : k' = k
    · subst hkk
      cases hfind : o.find? (fun q => q.1 == k') with
      | none =>
          exfalso
          obtain ⟨q, hq, hqk⟩ := List.any_eq_true.1 hany
          exact absurd hqk (by simpa using List.find?_eq_none.1 hfind q hq)
      | some q0 =>
          have hq0 := List.find?_some hfind
          have hq0' : q0.1 = k' := by simpa using hq0
          simp [hq0']
    · rw [if_neg hkk, objGet]
      cases hfind : o.find? (fun q => q.1 == k') with
      | none => simp [hfind]
      | some q0 =>
          have hq0 := List.find?_some hfind
          have hq0' : q0.1 = k' := by simpa using hq0
          have hne : (q0.1 == k) = false := by
            rw [hq0']
            simpa using hkk
          simp [hfind, hne]
          rw [if_neg (show ¬ q0.1 = k from by rw [hq0']; exact hkk)]
  · rw [if_neg hany, List.find?_append]
    have hnone : o.find? (fun q => q.1 == k) = none :=
      List.find?_eq_none.2 (fun q hq hqk =>
        hany (List.any_eq_true.2 ⟨q, hq, hqk⟩))
    by_cases hkk : k' = k
    · subst hkk
      simp [hnone, objGet]
    · have hkne : (k == k') = false := by simpa using fun e => hkk e.symm
      rw [if_neg hkk, objGet]
      cases hfind : o.find? (fun q => q.1 == k') with
      | none => simp [hfind, hkne]
      | some q0 => simp [hfind]

theorem normalizeFlags_preserves (optionDefs : List OptionDef) :
    ∀ (options : List (String × JsValue)) (name : String) (v : JsValue),
      objGet options name = some v → v ≠ .undefined →
      objGet (normalizeFlags options optionDefs) name = some v := by
  induction optionDefs with
  | nil =>
      intro o name v h _
      simpa [normalizeFlags] using h
  | cons d rest ih =>
      intro o name v h hv
      rw [normalizeFlags, List.foldl_cons]
      by_cases hcond : (!d.required && isUndefined o d.attributeName) = true
      · rw [if_pos hcond]
        by_cases hdn : d.attributeName = name
        · subst hdn
          rw [Bool.and_eq_true, isUndefined, h] at hcond
          cases v
          · exact absurd rfl hv
          all_goals simp at hcond
        · have hstep := objGet_setProp o d.attributeName name (.bool false)
          rw [if_neg (fun e => hdn e.symm)] at hstep
          exact ih _ name v (hstep.trans h) hv
      · rw [if_neg hcond]
        exact ih o name v h hv

theorem normalizeFlags_absent (optionDefs : List OptionDef) :
    ∀ (options : List (String × JsValue)) (name : String),
      (∀ d ∈ optionDefs, d.attributeName = name → d.required = true) →
      objGet options name = none →
      objGet (normalizeFlags options optionDefs) name = none := by
  induction optionDefs with
  | nil =>
      intro o name _ h
      simpa [normalizeFlags] using h
  | cons d rest ih =>
      intro o name hreq h
      rw [normalizeFlags, List.foldl_cons]
      have hrest : ∀ e ∈ rest, e.attributeName = name → e.required = true :=
        fun e he => hreq e (List.mem_cons_of_mem d he)
      by_cases hcond : (!d.required && isUndefined o d.attributeName) = true
      · rw [if_pos hcond]
        have hdn : d.attributeName ≠ name := by
          intro e
          have := hreq d (List.mem_cons_self d rest) e
          rw [Bool.and_eq_true, this] at hcond
          simp at hcond
        have hstep := objGet_setProp o d.attributeName name (.bool false)
        rw [if_neg (fun e => hdn e.symm)] at hstep
        exact ih _ name hrest (hstep.trans h)
      · rw [if_neg hcond]
        exact ih o name hrest h

theorem normalizeFlags_sets_bool (optionDefs : List OptionDef) :
    ∀ (options : List (String × JsValue)) (name : String),
      (∃ d ∈ optionDefs, d.attributeName = name ∧ d.required = false) →
      isUndefined options name = true →
      objGet (normalizeFlags options optionDefs) name = some (.bool false) := by
  induction optionDefs with
  | nil =>
      intro o name hex _
      simp at hex
  | cons d rest ih =>
      intro o name hex hund
      rw [normalizeFlags, List.foldl_cons]
      by_cases hdn : d.attributeName = name
      · by_cases hreq : d.required = false
        · have hcond : (!d.required && isUndefined o d.attributeName) = true := by
            rw [hreq, hdn, hund]
            rfl
          rw [if_pos hcond, hdn]
          have hset := objGet_setProp o name name (.bool false)
          rw [if_pos rfl] at hset
          exact normalizeFlags_preserves rest _ name (.bool false) hset (by simp)
        · have hcond : (!d.required && isUndefined o d.attributeName) = false := by
            rw [eq_true_of_ne_false hreq]
            rfl
          rw [hcond]
          simp only [Bool.false_eq_true, if_false]
          obtain ⟨e, he, hen, her⟩ := hex
          rcases List.mem_cons.1 he with rfl | he'
          · exact absurd her hreq
          · exact ih o name ⟨e, he', hen, her⟩ hund
      · obtain ⟨e, he, hen, her⟩ := hex
        rcases List.mem_cons.1 he with rfl | he'
        · exact absurd hen hdn
        · by_cases hcond : (!d.required && isUndefined o d.attributeName) = true
          · rw [if_pos hcond]
            have hstep := objGet_setProp o d.attributeName name (.bool false)
            rw [if_neg (fun hEq => hdn hEq.symm)] at hstep
            have hund' : isUndefined (setProp o d.attributeName (.bool false)) name = true := by
              rw [isUndefined, hstep]
              rw [isUndefined] at hund
              exact hund
            exact ih _ name ⟨e, he', hen, her⟩ hund'
          · rw [if_neg hcond]
            exact ih o name ⟨e, he', hen, her⟩ hund

/-! ## Claim theorems -/

/-- Claim C7: `normalizeFlags(options, optionDefs)` returns an options object in
which every declared boolean-style option (definition without a required
value argument) that is absent from `options` is set to `false`, while
declared value-taking options that are absent remain absent; options already
present with a proper value are untouched. -/
theorem C7_normalizeFlags_defaults (options : List (String × JsValue))
    (optionDefs : List OptionDef) (name : String) :
    ((∃ d ∈ optionDefs, d.attributeName = name ∧ d.required = false) →
      objGet options name = none →
      objGet (normalizeFlags options optionDefs) name = some (.bool false)) ∧
    ((∀ d ∈ optionDefs, d.attributeName = name → d.required = true) →
      objGet options name = none →
      objGet (normalizeFlags options optionDefs) name = none) ∧
    (∀ v : JsValue, objGet options name = some v → v ≠ .undefined →
      objGet (normalizeFlags options optionDefs) name = some v) := by
  refine ⟨fun hex habs => ?_, fun hreq habs => ?_, fun v hv hvu => ?_⟩
  · exact normalizeFlags_sets_bool optionDefs options name hex
      (by rw [isUndefined, habs])
  · exact normalizeFlags_absent optionDefs options name hreq habs
  · exact normalizeFlags_preserves optionDefs options name v hv hvu

/-- Claim C7 witness: the spec example — `normalize({}, [booleanFlagDef("verbose"),
valueFlagDef("testKeyword")])` yields `{verbose: false}` and does not default
the value-taking flag. -/
theorem C7_normalizeFlags_defaults_witness :
    objGet (normalizeFlags [] [⟨"verbose", false⟩, ⟨"testKeyword", true⟩]) "verbose"
        = some (.bool false) ∧
    objGet (normalizeFlags [] [⟨"verbose", false⟩, ⟨"testKeyword", true⟩]) "testKeyword"
        = none ∧
    normalizeFlags [] [⟨"verbose", false⟩, ⟨"testKeyword", true⟩]
        = [("verbose", .bool false)] :=
  ⟨(C7_normalizeFlags_defaults [] [⟨"verbose", false⟩, ⟨"testKeyword", true⟩] "verbose").1
      (by decide) rfl,
   (C7_normalizeFlags_defaults [] [⟨"verbose", false⟩, ⟨"testKeyword", true⟩] "testKeyword").2.1
      (by decide) rfl,
   rfl⟩

/-- Claim C6 counterexample: a command module exporting a callable only under
the `default` slot is not invoked by `loadCommands`
(`src/utils/commandLoader.js`, the registry `src/cli.js` uses): the program
is left unchanged (registration would have produced `["a"]`) and the file is
skipped with the does-not-export-a-function warning. -/
theorem C6_counterexample :
    CommandLoader.loadCommands [] "commands"
        [.file "a.js" (.defaultFn (fun p => "a" :: p))]
      = ([], [CommandLoader.skipWarning "commands/a.js"]) ∧
    (fun (p : List String) => "a" :: p) [] = ["a"] ∧
    (CommandLoader.loadCommands [] "commands"
        [.file "a.js" (.defaultFn (fun p => "a" :: p))]).1 ≠ ["a"] := by
  have hjs : CommandLoader.hasJsSuffix "a.js" = true := by decide
  refine ⟨?_, rfl, ?_⟩ <;>
    simp [CommandLoader.loadCommands, CommandLoader.runEntries,
      CommandLoader.runEntry, hjs, pathJoin]

/-- Claim C6 amended: in `loadCommands` of `src/utils/commandLoader.js`, a `.js`
file whose module is a function is invoked with the program as sole argument;
a module that is not a function — including one exposing a callable only
under the `default` slot — is skipped with a warning naming the offending
file path, and processing of the remaining entries continues (non-fatal). -/
theorem C6_commandLoader_amended (prog msgs : List String) (dirPath name : String)
    (rest : List CommandLoader.DirEntry) (hjs : CommandLoader.hasJsSuffix name = true) :
    (∀ f, CommandLoader.runEntries prog msgs dirPath (.file name (.fn f) :: rest)
        = CommandLoader.runEntries (f prog) msgs dirPath rest) ∧
    (∀ f, CommandLoader.runEntries prog msgs dirPath (.file name (.defaultFn f) :: rest)
        = CommandLoader.runEntries prog
            (msgs ++ [CommandLoader.skipWarning (pathJoin dirPath name)]) dirPath rest) ∧
    (CommandLoader.runEntries prog msgs dirPath (.file name .value :: rest)
        = CommandLoader.runEntries prog
            (msgs ++ [CommandLoader.skipWarning (pathJoin dirPath name)]) dirPath rest) := by
  refine ⟨fun f => ?_, fun f => ?_, ?_⟩ <;>
    rw [CommandLoader.runEntries] <;>
    simp [CommandLoader.runEntry, hjs]

/-- Claim C6 amended witness: a plain-value module is warned and skipped while
a later function module still registers. -/
theorem C6_commandLoader_amended_witness :
    CommandLoader.runEntries [] [] "commands"
        [.file "bad.js" .value, .file "good.js" (.fn (fun p => p ++ ["good"]))]
      = (["good"], [CommandLoader.skipWarning "commands/bad.js"]) := by
  have h1 := (C6_commandLoader_amended [] [] "commands" "bad.js"
      [.file "good.js" (.fn (fun p => p ++ ["good"]))] (by decide)).2.2
  have h2 := (C6_commandLoader_amended []
      [CommandLoader.skipWarning (pathJoin "commands" "bad.js")] "commands" "good.js"
      [] (by decide)).1 (fun p => p ++ ["good"])
  simp only [List.nil_append] at h1 h2
  rw [h1, h2]
  simp [CommandLoader.runEntries, pathJoin]

/-! ## Concrete fixtures used by witnesses and counterexamples -/

/-- A schema-valid configuration object: every required key with a
well-typed value. -/
def validCfgFields : List (String × JsValue) :=
  [("patterns", .arr [.str "tests/**/*.yaml"]), ("ignore", .arr []),
   ("verbose", .bool false), ("debug", .bool false), ("silent", .bool false),
   ("dryRun", .bool false), ("testKeyword", .str "it"), ("noCleanup", .bool false),
   ("quick", .bool false), ("force", .bool false), ("no-defaults", .bool false)]

/-- The valid configuration object itself. -/
def validCfg : JsValue := .obj validCfgFields

/-- An options object with no flag passed. -/
def noOptions : CliOptions :=
  ⟨.undefined, .undefined, .undefined, .undefined, .undefined, .undefined, .undefined, .undefined, .undefined, .undefined, .undefined⟩

/-- A file system holding only a valid packaged default config. -/
def envDefaultOnly : Env :=
  ⟨fun p => if p = "/app/src/../config/default.json" then .json validCfg else .absent,
   "/proj", "/app/src"⟩

theorem ConfigLoader.loadConfig_ok_shape (env : Env) (cliPatterns : List String)
    (options : CliOptions) (out : ConfigLoader.Outcome)
    (h : ConfigLoader.loadConfig env cliPatterns options = .ok out) :
    out.cliConfig = ConfigLoader.mkCliConfig cliPatterns options out.loaded := by
  simp only [ConfigLoader.loadConfig] at h
  split at h
  · split at h
    · exact absurd h (by simp)
    · exact absurd h (by simp)
    · cases h; rfl
  · split at h
    · exact absurd h (by simp)
    · cases h; rfl
    · split at h
      · exact absurd h (by simp)
      · cases h; rfl
      · exact absurd h (by simp)

/-- The packaged default config is selected when nothing else is present;
this is the concrete outcome of `loadConfig` on `envDefaultOnly`. -/
def defaultOutcome : ConfigLoader.Outcome :=
  ⟨⟨3, .arr [.str "tests/**/*.yaml"],
    [.str "**/*.test.js", .str "node_modules", .str ".git"],
    .bool false, .str "it", .bool false, .bool false, .bool false, .bool false⟩,
   "default config file: /app/src/../config/default.json", validCfg,
   ["/proj/yaml-to-test.json", "/app/src/../config/default.json"]⟩

theorem mem_effIgnoreRaw_test (optIgnore cfgIgnore : JsValue) :
    JsValue.str "**/*.test.js" ∈ ConfigLoader.effIgnoreRaw optIgnore cfgIgnore := by
  cases optIgnore <;> cases cfgIgnore <;> simp [ConfigLoader.effIgnoreRaw] <;>
    split_ifs <;> simp

theorem effIgnoreRaw_fallback (optIgnore cfgIgnore : JsValue)
    (hopt : ∀ xs, optIgnore = .arr xs → xs = [])
    (hcfg : ∀ ys, cfgIgnore = .arr ys → ys = []) :
    ConfigLoader.effIgnoreRaw optIgnore cfgIgnore
      = [.str "**/*.test.js", .str "node_modules", .str ".git"] := by
  cases optIgnore <;> cases cfgIgnore <;>
    (try rw [hopt _ rfl]) <;> (try rw [hcfg _ rfl]) <;>
    simp [ConfigLoader.effIgnoreRaw]

/-- Claim C2: every consolidated configuration `loadConfig` returns contains the
generated-file exclusion pattern `**/*.test.js` in `effectiveIgnorePatterns`,
and exactly once after the `new Set` de-duplication — whichever config source
was selected and whatever ignore lists were supplied. -/
theorem C2_mandatory_ignore_once (env : Env) (cliPatterns : List String)
    (options : CliOptions) (out : ConfigLoader.Outcome)
    (h : ConfigLoader.loadConfig env cliPatterns options = .ok out) :
    out.cliConfig.effectiveIgnorePatterns.count (JsValue.str "**/*.test.js") = 1 := by
  rw [ConfigLoader.loadConfig_ok_shape env cliPatterns options out h]
  exact count_dedupFirst_eq_one (mem_effIgnoreRaw_test _ _)

/-- Claim C2 witness: the default-only run contains the mandatory exclusion
exactly once. -/
theorem C2_mandatory_ignore_once_witness :
    defaultOutcome.cliConfig.effectiveIgnorePatterns.count (JsValue.str "**/*.test.js") = 1 :=
  C2_mandatory_ignore_once envDefaultOnly [] noOptions defaultOutcome rfl

/-- Claim C8 counterexample: with no `--ignore` and an empty config `ignore`
array, `loadConfig` returns `["**/*.test.js", "node_modules", ".git"]`, not
the mandatory exclusion alone. -/
theorem C8_counterexample :
    ConfigLoader.loadConfig envDefaultOnly [] noOptions = .ok defaultOutcome ∧
    defaultOutcome.cliConfig.effectiveIgnorePatterns
      = [.str "**/*.test.js", .str "node_modules", .str ".git"] ∧
    defaultOutcome.cliConfig.effectiveIgnorePatterns ≠ [.str "**/*.test.js"] :=
  ⟨rfl, rfl, by decide⟩

/-- Claim C8 amended: when no `--ignore` list is supplied and the loaded
configuration provides no ignore patterns, the hard default for
`effectiveIgnorePatterns` is the mandatory generated-file exclusion followed
by `node_modules` and `.git`. -/
theorem C8_amended_hard_default (env : Env) (cliPatterns : List String)
    (options : CliOptions) (out : ConfigLoader.Outcome)
    (h : ConfigLoader.loadConfig env cliPatterns options = .ok out)
    (hopt : ∀ xs, options.ignore = .arr xs → xs = [])
    (hcfg : ∀ ys, out.loaded.get "ignore" = .arr ys → ys = []) :
    out.cliConfig.effectiveIgnorePatterns
      = [.str "**/*.test.js", .str "node_modules", .str ".git"] := by
  rw [ConfigLoader.loadConfig_ok_shape env cliPatterns options out h]
  show dedupFirst (ConfigLoader.effIgnoreRaw options.ignore (out.loaded.get "ignore")) = _
  rw [effIgnoreRaw_fallback _ _ hopt hcfg]
  decide

/-- Claim C8 amended witness: the default-only run (empty config `ignore`, no
`--ignore`) yields exactly the three-element hard default. -/
theorem C8_amended_hard_default_witness :
    defaultOutcome.cliConfig.effectiveIgnorePatterns
      = [.str "**/*.test.js", .str "node_modules", .str ".git"] :=
  C8_amended_hard_default envDefaultOnly [] noOptions defaultOutcome rfl
    (fun xs hx => by cases hx)
    (fun ys hy => (JsValue.arr.inj hy).symm)

theorem loadConfigFile_invalid (env : Env) (p : String) (v : JsValue)
    (hjson : env.fs p = .json v) (herr : schemaErrors v ≠ []) :
    ConfigLoader.loadConfigFile env p
      = .error ⟨1, ("\n❌ Error: Configuration file \x27" ++ p ++
          "\x27 is invalid according to the schema:") :: (schemaErrors v).map errorLine⟩ := by
  rw [ConfigLoader.loadConfigFile, hjson]
  cases hse : schemaErrors v with
  | nil => exact absurd hse herr
  | cons e es => simp only [ConfigLoader.validateConfig, hse]

theorem loadConfig_project_invalid (env : Env) (cliPatterns : List String)
    (options : CliOptions) (v : JsValue)
    (hnc : options.config = .undefined)
    (hproj : env.fs (pathJoin env.cwd "yaml-to-test.json") = .json v)
    (herr : schemaErrors v ≠ []) :
    ConfigLoader.loadConfig env cliPatterns options
      = .error ⟨1, ("\n❌ Error: Configuration file \x27" ++
          pathJoin env.cwd "yaml-to-test.json" ++
          "\x27 is invalid according to the schema:") :: (schemaErrors v).map errorLine⟩ := by
  rw [ConfigLoader.loadConfig, hnc]
  rw [if_neg (by simp [JsValue.truthy])]
  rw [loadConfigFile_invalid env _ v hproj herr]

/-- Claim C10: in `loadConfigFile`, a file that exists and parses but fails
schema validation is fatal (exit code 1) at any path — conventional fallback
included — while a JSON parse error and absence both yield the non-fatal
`null` sentinel; the same schema failure on the conventional project file
aborts `loadConfig` itself. -/
theorem C10_schema_fatal_parse_nonfatal (env : Env) (p : String) :
    (∀ v, env.fs p = .json v → schemaErrors v ≠ [] →
      ConfigLoader.loadConfigFile env p
        = .error ⟨1, ("\n❌ Error: Configuration file \x27" ++ p ++
            "\x27 is invalid according to the schema:") :: (schemaErrors v).map errorLine⟩) ∧
    (env.fs p = .malformed → ConfigLoader.loadConfigFile env p = .ok none) ∧
    (env.fs p = .absent → ConfigLoader.loadConfigFile env p = .ok none) ∧
    (∀ cliPatterns options v, options.config = .undefined →
      env.fs (pathJoin env.cwd "yaml-to-test.json") = .json v →
      schemaErrors v ≠ [] →
      ConfigLoader.loadConfig env cliPatterns options
        = .error ⟨1, ("\n❌ Error: Configuration file \x27" ++
            pathJoin env.cwd "yaml-to-test.json" ++
            "\x27 is invalid according to the schema:") :: (schemaErrors v).map errorLine⟩) := by
  refine ⟨fun v hjson herr => loadConfigFile_invalid env p v hjson herr,
          fun hmal => ?_, fun habs => ?_,
          fun cliPatterns options v hnc hproj herr =>
            loadConfig_project_invalid env cliPatterns options v hnc hproj herr⟩
  · rw [ConfigLoader.loadConfigFile, hmal]
  · rw [ConfigLoader.loadConfigFile, habs]

/-- A configuration object that would be schema-valid except for the unknown
key `foo`. -/
def badProjectCfg : JsValue := .obj (("foo", .bool true) :: validCfgFields)

/-- A file system with the unknown-key project config in the working
directory and a valid packaged default config. -/
def envBadProject : Env :=
  ⟨fun p => if p = "/proj/yaml-to-test.json" then .json badProjectCfg
    else if p = "/app/src/../config/default.json" then .json validCfg else .absent,
   "/proj", "/app/src"⟩

/-- Claim C10 witness: the unknown-key project config found under the
conventional name is fatal with exit code 1; a malformed and an absent file
both give `null`. -/
theorem C10_schema_fatal_parse_nonfatal_witness :
    ConfigLoader.loadConfig envBadProject [] noOptions
      = .error ⟨1,
          ["\n❌ Error: Configuration file \x27/proj/yaml-to-test.json\x27 is invalid according to the schema:",
           "    - root must NOT have additional properties"]⟩ ∧
    ConfigLoader.loadConfigFile (⟨fun _ => .malformed, "/proj", "/app/src"⟩ : Env) "/x"
      = .ok none ∧
    ConfigLoader.loadConfigFile (⟨fun _ => .absent, "/proj", "/app/src"⟩ : Env) "/x"
      = .ok none :=
  ⟨(C10_schema_fatal_parse_nonfatal envBadProject "/proj/yaml-to-test.json").2.2.2
      [] noOptions badProjectCfg rfl rfl (by decide),
   (C10_schema_fatal_parse_nonfatal ⟨fun _ => .malformed, "/proj", "/app/src"⟩ "/x").2.1 rfl,
   (C10_schema_fatal_parse_nonfatal ⟨fun _ => .absent, "/proj", "/app/src"⟩ "/x").2.2.1 rfl⟩

/-- Claim C3 counterexample: a project config whose only flaw is the unknown
key `foo` does terminate `loadConfig` with exit code 1, but no logged error
message names the key — Ajv reports the violation as
`must NOT have additional properties` at the root instance path. -/
theorem C3_counterexample :
    ConfigLoader.loadConfig envBadProject [] noOptions
      = .error ⟨1,
          ["\n❌ Error: Configuration file \x27/proj/yaml-to-test.json\x27 is invalid according to the schema:",
           "    - root must NOT have additional properties"]⟩ ∧
    (["\n❌ Error: Configuration file \x27/proj/yaml-to-test.json\x27 is invalid according to the schema:",
      "    - root must NOT have additional properties"].all
        (fun m => !(containsStr m "foo"))) = true :=
  ⟨rfl, by decide⟩

/-- Claim C3 amended: a project configuration object containing a key that the
schema does not declare makes cascade resolution terminate with exit code 1
and an error message reporting the schema violation — but the message reads
`must NOT have additional properties` and does not name the offending key. -/
theorem C3_amended_unknown_key_fatal (env : Env) (cliPatterns : List String)
    (options : CliOptions) (fields : List (String × JsValue)) (k : String)
    (hnc : options.config = .undefined)
    (hproj : env.fs (pathJoin env.cwd "yaml-to-test.json") = .json (.obj fields))
    (hk : k ∈ fields.map Prod.fst) (hunk : schemaKeys.contains k = false) :
    ConfigLoader.loadConfig env cliPatterns options
      = .error ⟨1, ("\n❌ Error: Configuration file \x27" ++
          pathJoin env.cwd "yaml-to-test.json" ++
          "\x27 is invalid according to the schema:")
            :: (schemaErrors (.obj fields)).map errorLine⟩ ∧ (1 : Nat) ≠ 0 := by
  refine ⟨?_, by decide⟩
  apply loadConfig_project_invalid env cliPatterns options _ hnc hproj
  obtain ⟨kv, hkv, hfst⟩ := List.mem_map.1 hk
  have hmem : kv ∈ fields.filter (fun kv => ¬ schemaKeys.contains kv.1) := by
    refine List.mem_filter.2 ⟨hkv, ?_⟩
    rw [hfst, hunk]
    decide
  have hne : fields.filter (fun kv => ¬ schemaKeys.contains kv.1) ≠ [] :=
    List.ne_nil_of_mem hmem
  rw [schemaErrors]
  intro hcontra
  rcases List.append_eq_nil.1 hcontra with ⟨hab, _⟩
  rcases List.append_eq_nil.1 hab with ⟨_, hb⟩
  exact hne (List.map_eq_nil_iff.1 hb)

/-- Claim C3 amended witness: the `foo`-keyed project config exits with code 1
and the additional-properties diagnostic. -/
theorem C3_amended_unknown_key_fatal_witness :
    ConfigLoader.loadConfig envBadProject [] noOptions
      = .error ⟨1,
          ["\n❌ Error: Configuration file \x27/proj/yaml-to-test.json\x27 is invalid according to the schema:",
           "    - root must NOT have additional properties"]⟩ ∧ (1 : Nat) ≠ 0 :=
  C3_amended_unknown_key_fatal envBadProject [] noOptions
    (("foo", .bool true) :: validCfgFields) "foo" rfl rfl (by decide) (by decide)

/-- Claim C5: an explicit `--config` path that does not resolve to an existing
file is fatal (exit code 1), while with no `--config` and no conventional
project file the resolution succeeds and the effective configuration is
consolidated from the packaged default config alone. -/
theorem C5_missing_custom_fatal_default_fallback (env : Env)
    (cliPatterns : List String) (options : CliOptions) :
    (∀ c, options.config = .str c → c ≠ "" →
      env.fs (resolvePath env.cwd c) = .absent →
      ConfigLoader.loadConfig env cliPatterns options = .error ⟨1, []⟩) ∧
    (options.config = .undefined →
      env.fs (pathJoin env.cwd "yaml-to-test.json") = .absent →
      ∀ d, env.fs (pathJoin (pathJoin env.mainModuleDir "../config") "default.json")
            = .json d →
        schemaErrors d = [] →
        ConfigLoader.loadConfig env cliPatterns options
          = .ok ⟨ConfigLoader.mkCliConfig cliPatterns options d,
                 "default config file: " ++
                   pathJoin (pathJoin env.mainModuleDir "../config") "default.json",
                 d, [pathJoin env.cwd "yaml-to-test.json",
                     pathJoin (pathJoin env.mainModuleDir "../config") "default.json"]⟩) := by
  constructor
  · intro c hc hcne habs
    simp [ConfigLoader.loadConfig, hc, JsValue.truthy, hcne, JsValue.asString,
      ConfigLoader.loadConfigFile, habs]
  · intro hnc habs d hd hvalid
    simp [ConfigLoader.loadConfig, hnc, JsValue.truthy,
      ConfigLoader.loadConfigFile, habs, hd, ConfigLoader.validateConfig, hvalid]

/-- Claim C5 witness: a missing explicit `--config` file exits with code 1;
with nothing but the default config present, the default-only consolidation
succeeds. -/
theorem C5_missing_custom_fatal_default_fallback_witness :
    ConfigLoader.loadConfig envDefaultOnly []
        ⟨.str "missing.json", .undefined, .undefined, .undefined, .undefined, .undefined,
         .undefined, .undefined, .undefined, .undefined, .undefined⟩
      = .error ⟨1, []⟩ ∧
    ConfigLoader.loadConfig envDefaultOnly [] noOptions = .ok defaultOutcome :=
  ⟨(C5_missing_custom_fatal_default_fallback envDefaultOnly []
      ⟨.str "missing.json", .undefined, .undefined, .undefined, .undefined, .undefined,
       .undefined, .undefined, .undefined, .undefined, .undefined⟩).1
      "missing.json" rfl (by decide) rfl,
   ((C5_missing_custom_fatal_default_fallback envDefaultOnly [] noOptions).2
      rfl rfl validCfg rfl (by decide))⟩

/-- A schema-valid project configuration, distinguishable from the default
(`dryRun` is `true`). -/
def projectCfg : JsValue :=
  .obj (validCfgFields.map (fun kv => if kv.1 = "dryRun" then ("dryRun", .bool true) else kv))

/-- A file system where both the conventional project config and the
packaged default config are present and valid. -/
def envProject : Env :=
  ⟨fun p => if p = "/proj/yaml-to-test.json" then .json projectCfg
    else if p = "/app/src/../config/default.json" then .json validCfg else .absent,
   "/proj", "/app/src"⟩

/-- Claim C9: once a project config (conventional name) or an explicit
`--config` file loads and validates, `loadConfig` consults no other config
file — in particular the default config file is never passed to
`loadConfigFile` — and the whole consolidated configuration is computed from
that single loaded object. -/
theorem C9_single_source (env : Env) (cliPatterns : List String)
    (options : CliOptions) (p : JsValue) :
    (options.config = .undefined →
      env.fs (pathJoin env.cwd "yaml-to-test.json") = .json p →
      schemaErrors p = [] →
      ConfigLoader.loadConfig env cliPatterns options
        = .ok ⟨ConfigLoader.mkCliConfig cliPatterns options p,
               "project config file: " ++ pathJoin env.cwd "yaml-to-test.json",
               p, [pathJoin env.cwd "yaml-to-test.json"]⟩ ∧
      (pathJoin (pathJoin env.mainModuleDir "../config") "default.json"
          ≠ pathJoin env.cwd "yaml-to-test.json" →
        pathJoin (pathJoin env.mainModuleDir "../config") "default.json"
          ∉ [pathJoin env.cwd "yaml-to-test.json"])) ∧
    (∀ c, options.config = .str c → c ≠ "" →
      env.fs (resolvePath env.cwd c) = .json p →
      schemaErrors p = [] →
      ConfigLoader.loadConfig env cliPatterns options
        = .ok ⟨ConfigLoader.mkCliConfig cliPatterns options p,
               "custom config file: " ++ resolvePath env.cwd c,
               p, [resolvePath env.cwd c]⟩) := by
  constructor
  · intro hnc hproj hvalid
    constructor
    · simp [ConfigLoader.loadConfig, hnc, JsValue.truthy,
        ConfigLoader.loadConfigFile, hproj, ConfigLoader.validateConfig, hvalid]
    · intro hne
      simp [hne]
  · intro c hc hcne hcustom hvalid
    simp [ConfigLoader.loadConfig, hc, JsValue.truthy, hcne, JsValue.asString,
      ConfigLoader.loadConfigFile, hcustom, ConfigLoader.validateConfig, hvalid]

/-- Claim C9 witness: with both files present, only the project config is
consulted; the default config file path is never read. -/
theorem C9_single_source_witness :
    ConfigLoader.loadConfig envProject [] noOptions
      = .ok ⟨ConfigLoader.mkCliConfig [] noOptions projectCfg,
             "project config file: /proj/yaml-to-test.json",
             projectCfg, ["/proj/yaml-to-test.json"]⟩ ∧
    "/app/src/../config/default.json" ∉ ["/proj/yaml-to-test.json"] := by
  obtain ⟨h1, h2⟩ := (C9_single_source envProject [] noOptions projectCfg).1
    rfl rfl (by decide)
  exact ⟨h1, h2 (by decide)⟩

theorem find?_filter_of_imp {α : Type} (l : List α) (p q : α → Bool)
    (h : ∀ x, p x = true → q x = true) : (l.filter q).find? p = l.find? p := by
  induction l with
  | nil => rfl
  | cons a l ih =>
      by_cases hpa : p a = true
      · rw [List.filter_cons, if_pos (h a hpa)]
        rw [List.find?_cons_of_pos _ hpa, List.find?_cons_of_pos _ hpa]
      · have hpa' : ¬ p a = true := hpa
        cases hqa : q a
        · rw [List.filter_cons, hqa]
          simp only [Bool.false_eq_true, if_false]
          rw [List.find?_cons_of_neg _ hpa']
          exact ih
        · rw [List.filter_cons, hqa]
          simp only [if_true]
          rw [List.find?_cons_of_neg _ hpa', List.find?_cons_of_neg _ hpa']
          exact ih

theorem get_spreadMerge (d p : List (String × JsValue)) (k : String) :
    (TW.spreadMerge (.obj d) (.obj p)).get k
      = if (p.find? (fun kv => kv.1 == k)).isSome then (JsValue.obj p).get k
        else (JsValue.obj d).get k := by
  show (JsValue.obj (TW.mergeFields (TW.spreadFields (.obj d)) (TW.spreadFields (.obj p)))).get k = _
  simp only [TW.spreadFields, TW.mergeFields, JsValue.get]
  rw [List.find?_append]
  cases hp : p.find? (fun kv => kv.1 == k) with
  | some q =>
      have hfilter : (d.filter (fun kv => !(p.any (fun kw => kw.1 == kv.1)))).find?
          (fun kv => kv.1 == k) = none := by
        refine List.find?_eq_none.2 (fun kv hkv hpred => ?_)
        have hcond := List.of_mem_filter hkv
        have hq := List.find?_some hp
        have hqmem := List.mem_of_find?_eq_some hp
        have : p.any (fun kw => kw.1 == kv.1) = true := by
          refine List.any_eq_true.2 ⟨q, hqmem, ?_⟩
          have h1 : kv.1 = k := by simpa using hpred
          have h2 : q.1 = k := by simpa using hq
          simp [h1, h2]
        simp [this] at hcond
      rw [hfilter]
      simp
  | none =>
      have himp : ∀ kv : String × JsValue, (kv.1 == k) = true →
          (!(p.any (fun kw => kw.1 == kv.1))) = true := by
        intro kv hpred
        have h1 : kv.1 = k := by simpa using hpred
        have : p.any (fun kw => kw.1 == k) = false := by
          cases hany : p.any (fun kw => kw.1 == k)
          · rfl
          · obtain ⟨kw, hkw, hkwk⟩ := List.any_eq_true.1 hany
            have := List.find?_eq_none.1 hp kw hkw
            exact absurd hkwk this
        simp [h1, this]
      rw [find?_filter_of_imp d _ _ himp]
      simp

theorem get_isSome_of_arr (p : List (String × JsValue)) (k : String) (xs : List JsValue)
    (h : (JsValue.obj p).get k = .arr xs) :
    (p.find? (fun kv => kv.1 == k)).isSome = true := by
  simp only [JsValue.get] at h
  cases hf : p.find? (fun kv => kv.1 == k) with
  | none => rw [hf] at h; simp at h
  | some q => rfl

theorem TW.loadConfig_ok_merged_shape (env : Env) (cliPatterns : List String)
    (options : CliOptions) (out : TW.Outcome)
    (h : TW.loadConfig env cliPatterns options = .ok out) :
    out.cliConfig = TW.mkCliConfig cliPatterns options out.merged := by
  simp only [TW.loadConfig] at h
  split at h
  · exact absurd h (by simp)
  · split at h
    · exact absurd h (by simp)
    · split at h
      · exact absurd h (by simp)
      · split at h
        · exact absurd h (by simp)
        · cases h; rfl

/-- Claim C1: the testweaver cascade shallow-merges the default and the
project (or explicit custom) configuration with object spread: each key of
the merged object takes the project value exactly when the project config
defines that key, and the default value otherwise; array values are replaced
wholesale; and the effective configuration is consolidated from this merged
object. -/
theorem C1_shallow_merge (env : Env) (cliPatterns : List String)
    (options : CliOptions) (d p : List (String × JsValue)) (out : TW.Outcome) :
    (options.config = .undefined →
      env.fs (pathJoin (pathJoin env.mainModuleDir "../config") "default.json")
        = .json (.obj d) →
      env.fs (pathJoin env.cwd "testweaver.json") = .json (.obj p) →
      TW.loadConfig env cliPatterns options = .ok out →
      (∀ k, out.merged.get k
          = if (p.find? (fun kv => kv.1 == k)).isSome
            then (JsValue.obj p).get k else (JsValue.obj d).get k) ∧
      (∀ k xs ys, (JsValue.obj p).get k = .arr xs → (JsValue.obj d).get k = .arr ys →
          out.merged.get k = .arr xs) ∧
      out.cliConfig = TW.mkCliConfig cliPatterns options out.merged) ∧
    (∀ c, options.config = .str c → c ≠ "" →
      env.fs (pathJoin (pathJoin env.mainModuleDir "../config") "default.json")
        = .json (.obj d) →
      env.fs (resolvePath env.cwd c) = .json (.obj p) →
      TW.loadConfig env cliPatterns options = .ok out →
      (∀ k, out.merged.get k
          = if (p.find? (fun kv => kv.1 == k)).isSome
            then (JsValue.obj p).get k else (JsValue.obj d).get k) ∧
      (∀ k xs ys, (JsValue.obj p).get k = .arr xs → (JsValue.obj d).get k = .arr ys →
          out.merged.get k = .arr xs) ∧
      out.cliConfig = TW.mkCliConfig cliPatterns options out.merged) := by
  have main : ∀ (hmerged : out.merged = TW.spreadMerge (.obj d) (.obj p)),
      (∀ k, out.merged.get k
          = if (p.find? (fun kv => kv.1 == k)).isSome
            then (JsValue.obj p).get k else (JsValue.obj d).get k) ∧
      (∀ k xs ys, (JsValue.obj p).get k = .arr xs → (JsValue.obj d).get k = .arr ys →
          out.merged.get k = .arr xs) := by
    intro hmerged
    constructor
    · intro k
      rw [hmerged]
      exact get_spreadMerge d p k
    · intro k xs ys hxp _
      rw [hmerged, get_spreadMerge d p k, if_pos (get_isSome_of_arr p k xs hxp), hxp]
  constructor
  · intro hnc hd hp h
    simp only [TW.loadConfig, hnc, JsValue.truthy, Bool.false_eq_true, if_false,
      TW.loadConfigFile, hd, hp] at h
    split at h
    · exact absurd h (by simp)
    · split at h
      · exact absurd h (by simp)
      · cases h
        exact ⟨(main rfl).1, (main rfl).2, rfl⟩
  · intro c hc hcne hd hp h
    have htr : (JsValue.str c).truthy = true := by simp [JsValue.truthy, hcne]
    simp only [TW.loadConfig, hc, htr, if_true, JsValue.asString,
      TW.loadConfigFile, hd, hp] at h
    split at h
    · exact absurd h (by simp)
    · split at h
      · exact absurd h (by simp)
      · cases h
        exact ⟨(main rfl).1, (main rfl).2, rfl⟩

/-- A testweaver project config that overrides only `patterns`. -/
def projTW : JsValue := .obj [("patterns", .arr [.str "custom/*.yaml"])]

/-- File system with a valid default config and the patterns-only project
config. -/
def envTW : Env :=
  ⟨fun q => if q = "/proj/testweaver.json" then .json projTW
    else if q = "/app/src/../config/default.json" then .json validCfg else .absent,
   "/proj", "/app/src"⟩

/-- The testweaver outcome on `envTW`. -/
def outTW : TW.Outcome :=
  ⟨⟨3, .arr [.str "custom/*.yaml"], [.str "**/*.test.js"], .bool false, .str "it",
    .bool false, .bool false, .bool false, .bool false⟩,
   "project config: /proj/testweaver.json",
   .obj [("ignore", .arr []), ("verbose", .bool false), ("debug", .bool false),
     ("silent", .bool false), ("dryRun", .bool false), ("testKeyword", .str "it"),
     ("noCleanup", .bool false), ("quick", .bool false), ("force", .bool false),
     ("no-defaults", .bool false), ("patterns", .arr [.str "custom/*.yaml"])]⟩

/-- Claim C1 witness: the project-level `patterns` array replaces the default
one wholesale, an untouched key keeps the default value, and the effective
configuration is consolidated from the merged object. -/
theorem C1_shallow_merge_witness :
    outTW.merged.get "patterns" = .arr [.str "custom/*.yaml"] ∧
    outTW.merged.get "dryRun" = .bool false ∧
    outTW.cliConfig = TW.mkCliConfig [] noOptions outTW.merged := by
  obtain ⟨hget, _, hcfg⟩ :=
    (C1_shallow_merge envTW [] noOptions validCfgFields
      [("patterns", .arr [.str "custom/*.yaml"])] outTW).1 rfl rfl rfl rfl
  refine ⟨?_, ?_, hcfg⟩
  · rw [hget "patterns"]
    decide
  · rw [hget "dryRun"]
    decide

/-- Claim C4: in the testweaver consolidation, `isDryRun` equals the merged
config value exactly when the dry-run option is absent (`undefined`), and
equals the option value whenever the option is present — even when that
value is `false` — so flag-not-passed is distinguished from
flag-passed-as-false. -/
theorem C4_dryRun_resolution (env : Env) (cliPatterns : List String)
    (options : CliOptions) (out : TW.Outcome)
    (h : TW.loadConfig env cliPatterns options = .ok out) :
    (options.dryRun = .undefined → out.cliConfig.isDryRun = out.merged.get "dryRun") ∧
    (∀ v, options.dryRun = v → v ≠ .undefined → out.cliConfig.isDryRun = v) := by
  rw [TW.loadConfig_ok_merged_shape env cliPatterns options out h]
  constructor
  · intro h0
    show (if options.dryRun ≠ .undefined then options.dryRun else out.merged.get "dryRun") = _
    rw [if_neg (by simp [h0])]
  · intro v hv hne
    show (if options.dryRun ≠ .undefined then options.dryRun else out.merged.get "dryRun") = _
    rw [hv, if_pos hne]

/-- A testweaver project config whose only key is `dryRun: true`. -/
def projTWdry : JsValue := .obj [("dryRun", .bool true)]

/-- File system with a valid default config and the `dryRun: true` project
config. -/
def envTWdry : Env :=
  ⟨fun q => if q = "/proj/testweaver.json" then .json projTWdry
    else if q = "/app/src/../config/default.json" then .json validCfg else .absent,
   "/proj", "/app/src"⟩

/-- The testweaver outcome on `envTWdry` with no CLI flags. -/
def outTWdry : TW.Outcome :=
  ⟨⟨3, .arr [.str "tests/**/*.yaml"], [.str "**/*.test.js"], .bool true, .str "it",
    .bool false, .bool false, .bool false, .bool false⟩,
   "project config: /proj/testweaver.json",
   .obj [("patterns", .arr [.str "tests/**/*.yaml"]), ("ignore", .arr []),
     ("verbose", .bool false), ("debug", .bool false), ("silent", .bool false),
     ("testKeyword", .str "it"), ("noCleanup", .bool false), ("quick", .bool false),
     ("force", .bool false), ("no-defaults", .bool false), ("dryRun", .bool true)]⟩

/-- Claim C4 witness: config `dryRun: true` with no `--dry-run` flag yields
`isDryRun = true`. -/
theorem C4_dryRun_resolution_witness :
    outTWdry.cliConfig.isDryRun = outTWdry.merged.get "dryRun" ∧
    outTWdry.merged.get "dryRun" = .bool true ∧
    outTWdry.cliConfig.isDryRun = .bool true := by
  have h := (C4_dryRun_resolution envTWdry [] noOptions outTWdry rfl).1 rfl
  exact ⟨h, by decide, by decide⟩
